import Mathlib

/-!
Shallow embedding of the spatial distribution engine of the smrf repository.

The embedding covers `smrf/spatial/grid.py` (class `Grid`: the k-nearest
neighbor index over station coordinates, the global masked detrending path
`detrended_interpolation_mask`, and the per-station local detrending path
`detrended_interpolation_local`), and the dispatcher logic of
`smrf/distribute/variable_base.py` / `smrf/distribute/image_data.py`
(`_initialize` strategy dispatch, `_distribute` all-null rejection) together
with the output clamping performed by the per-variable `distribute` methods
(e.g. `smrf/distribute/air_temp.py`).

Real numbers are modelled by `ℚ` (exact arithmetic in place of IEEE floats;
"within floating-point tolerance" statements become exact equalities).
External numeric kernels are modelled by their documented contracts:

* `scipy.spatial.KDTree.query(coords, k)`, queried with the same points the
  tree was built over, returns for each point the indices of its `k` nearest
  points (the query point itself included, at distance 0) ordered by
  distance; when `k` exceeds the number of points, the missing neighbors are
  reported with the out-of-range index `n`.  Distance ties are modelled as
  broken by index order.
* `numpy.polyfit(x, y, 1)` returns the least-squares line; for a
  nondegenerate design it is the unique solution of the normal equations,
  which is the closed form embedded here.
* `scipy.interpolate.griddata` (and its deconstructed variant
  `grid_interpolate_deconstructed`) at one fixed raster cell is a station
  weighting determined only by the station points the triangulation was
  built over; it is modelled by an abstract weight functional
  `W : List (ℚ × ℚ) → Fin n → ℚ` applied to those points.  Barycentric
  (and nearest) interpolation weights sum to 1 at cells inside the convex
  hull, which appears as an explicit hypothesis where a theorem needs it.
-/

namespace SMRF

/-- Squared Euclidean distance between two planar points, the quantity the
k-d tree orders neighbors by. -/
def sqDist (p q : ℚ × ℚ) : ℚ := (p.1 - q.1) ^ 2 + (p.2 - q.2) ^ 2

/-- Neighbor ordering relative to a query point: compare by distance first,
breaking distance ties by station index (the deterministic model of the
order `scipy.spatial.KDTree.query` reports neighbors in). -/
def nnLE (key : α → ℚ × ℕ) (a b : α) : Prop :=
  (key a).1 < (key b).1 ∨ ((key a).1 = (key b).1 ∧ (key a).2 ≤ (key b).2)

instance (key : α → ℚ × ℕ) : DecidableRel (nnLE key) := fun a b => by
  unfold nnLE; infer_instance

instance (key : α → ℚ × ℕ) : IsTotal α (nnLE key) where
  total a b := by
    rcases lt_trichotomy (key a).1 (key b).1 with h | h | h
    · exact Or.inl (Or.inl h)
    · rcases Nat.le_total (key a).2 (key b).2 with h2 | h2
      · exact Or.inl (Or.inr ⟨h, h2⟩)
      · exact Or.inr (Or.inr ⟨h.symm, h2⟩)
    · exact Or.inr (Or.inl h)

instance (key : α → ℚ × ℕ) : IsTrans α (nnLE key) where
  trans a b c hab hbc := by
    rcases hab with h1 | ⟨h1, h1'⟩ <;> rcases hbc with h2 | ⟨h2, h2'⟩
    · exact Or.inl (h1.trans h2)
    · exact Or.inl (h2 ▸ h1)
    · exact Or.inl (h1 ▸ h2)
    · exact Or.inr ⟨h1.trans h2, h1'.trans h2'⟩

/-- Sort key of candidate neighbor `j` for query station `i`. -/
def nnKey (coords : Fin n → ℚ × ℚ) (i j : Fin n) : ℚ × ℕ :=
  (sqDist (coords i) (coords j), j.val)

/-- All stations ordered by distance from station `i` (ties by index): the
order in which the k-d tree query reports neighbors of `i`. -/
def sortedNeighbors (coords : Fin n → ℚ × ℚ) (i : Fin n) : List (Fin n) :=
  List.insertionSort (nnLE (nnKey coords i)) (List.finRange n)

/-- Raw neighbor indices returned by `tree.query(coords, k=k)` for station
`i`: the `k` nearest stations by index; when `k > n` scipy reports the
missing neighbors with the out-of-range index `n`. -/
def neighborRow (coords : Fin n → ℚ × ℚ) (i : Fin n) (k : ℕ) : List ℕ :=
  ((sortedNeighbors coords i).take k).map Fin.val ++ List.replicate (k - n) n

/-- Station metadata columns used by `Grid`: geographic and projected
coordinates plus elevation, index-aligned across stations. -/
structure Metadata (n : ℕ) where
  latitude : Fin n → ℚ
  longitude : Fin n → ℚ
  utm_x : Fin n → ℚ
  utm_y : Fin n → ℚ
  elevation : Fin n → ℚ

/-- Geographic coordinates, the point set the neighbor k-d tree is built
over (`metadata[["latitude", "longitude"]]` in `Grid.__init__`). -/
def latlonCoords (md : Metadata n) (i : Fin n) : ℚ × ℚ :=
  (md.latitude i, md.longitude i)

/-- Projected coordinates, the point set the Delaunay triangulation is built
over (`metadata.utm_x, metadata.utm_y`). -/
def utmCoords (md : Metadata n) (i : Fin n) : ℚ × ℚ :=
  (md.utm_x i, md.utm_y i)

/-- Turn every raw neighbor index of a row into a station index, `none` as
soon as one is out of range: the model of the fancy indexing
`metadata.index.to_numpy()[indices]`, which raises `IndexError` on the
padding index `n` that scipy emits when `k` exceeds the station count. -/
def lookupAll (n : ℕ) : List ℕ → Option (List (Fin n))
  | [] => some []
  | j :: l =>
    if hj : j < n then
      match lookupAll n l with
      | some js => some (⟨j, hj⟩ :: js)
      | none => none
    else none

/-- One row of the `full_df` table: the resolved neighbor list of station
`i` (its `cell_local` column), `none` when the raw indices go out of
range. -/
def neighborRowFin (md : Metadata n) (i : Fin n) (k : ℕ) : Option (List (Fin n)) :=
  lookupAll n (neighborRow (latlonCoords md) i k)

/-- State of a `Grid` instance: the metadata and neighbor count it was
built with, the `full_df` neighborhood table, the lazily built Delaunay
triangulation (modelled by the point list it is built over; `none` before
the first local call), and the per-station detrending mask computed at
initialization. -/
structure GridState (n : ℕ) where
  md : Metadata n
  k : ℕ
  full_df : Fin n → List (Fin n)
  tri : Option (List (ℚ × ℚ))
  mask : Fin n → Bool

/-- `Grid.__init__` for the `grid_local` path: build the k-d tree over the
geographic coordinates, query the `k` nearest neighbors of every station,
and resolve them against the metadata table (raising — returning `none` —
when an index is out of range); `self.tri` starts out as `None`. -/
def gridInit (md : Metadata n) (k : ℕ) (mask : Fin n → Bool) : Option (GridState n) :=
  if h : ∀ i : Fin n, (neighborRowFin md i k).isSome then
    some
      { md := md
        k := k
        full_df := fun i => (neighborRowFin md i k).get (h i)
        tri := none
        mask := mask }
  else none

/-- The state `gridInit` produces whenever it succeeds: the neighborhood of
every station is the `k`-prefix of its distance-sorted station list. -/
def mkLocalState (md : Metadata n) (k : ℕ) (mask : Fin n → Bool) : GridState n :=
  { md := md
    k := k
    full_df := fun i => (sortedNeighbors (latlonCoords md) i).take k
    tri := none
    mask := mask }

lemma sortedNeighbors_perm (coords : Fin n → ℚ × ℚ) (i : Fin n) :
    (sortedNeighbors coords i).Perm (List.finRange n) :=
  List.perm_insertionSort _ _

lemma sortedNeighbors_length (coords : Fin n → ℚ × ℚ) (i : Fin n) :
    (sortedNeighbors coords i).length = n := by
  simpa using (sortedNeighbors_perm coords i).length_eq

lemma lookupAll_map_val (l : List (Fin n)) :
    lookupAll n (l.map Fin.val) = some l := by
  induction l with
  | nil => rfl
  | cons a l ih =>
    simp only [List.map_cons, lookupAll]
    rw [dif_pos a.isLt, ih]

lemma lookupAll_none_of_mem {l : List ℕ} (hj : n ∈ l) :
    lookupAll n l = none := by
  induction l with
  | nil => simp at hj
  | cons a l ih =>
    simp only [lookupAll]
    rcases List.mem_cons.mp hj with rfl | hmem
    · rw [dif_neg (lt_irrefl n)]
    · by_cases ha : a < n
      · rw [dif_pos ha, ih hmem]
      · rw [dif_neg ha]

lemma neighborRowFin_of_le (md : Metadata n) (i : Fin n) {k : ℕ} (hk : k ≤ n) :
    neighborRowFin md i k = some ((sortedNeighbors (latlonCoords md) i).take k) := by
  unfold neighborRowFin neighborRow
  rw [Nat.sub_eq_zero_of_le hk, List.replicate_zero, List.append_nil]
  exact lookupAll_map_val _

lemma neighborRowFin_of_gt (md : Metadata n) (i : Fin n) {k : ℕ} (hk : n < k) :
    neighborRowFin md i k = none := by
  unfold neighborRowFin
  refine lookupAll_none_of_mem ?_
  refine List.mem_append_right _ ?_
  exact List.mem_replicate.mpr ⟨Nat.sub_ne_zero_of_lt hk, rfl⟩

/-- For `k ≤ n` initialization succeeds and produces exactly the state whose
neighborhoods are `k`-prefixes of the distance-sorted station lists. -/
lemma gridInit_of_le (md : Metadata n) {k : ℕ} (hk : k ≤ n) (mask : Fin n → Bool) :
    gridInit md k mask = some (mkLocalState md k mask) := by
  unfold gridInit
  have hall : ∀ i : Fin n, (neighborRowFin md i k).isSome := by
    intro i
    rw [neighborRowFin_of_le md i hk]
    rfl
  rw [dif_pos hall]
  simp only [mkLocalState, Option.some.injEq, GridState.mk.injEq]
  refine ⟨trivial, trivial, ?_, trivial, trivial⟩
  funext i
  simp [neighborRowFin_of_le md i hk]

/-- For `k > n ≥ 1` initialization fails: scipy pads the neighbor indices
with `n`, and indexing the metadata table by `n` is out of range. -/
lemma gridInit_of_gt (md : Metadata n) {k : ℕ} (hk : n < k) (hn : 1 ≤ n)
    (mask : Fin n → Bool) : gridInit md k mask = none := by
  unfold gridInit
  rw [dif_neg]
  intro hall
  have := hall ⟨0, hn⟩
  rw [neighborRowFin_of_gt md _ hk] at this
  simp at this

lemma sqDist_self (p : ℚ × ℚ) : sqDist p p = 0 := by
  simp [sqDist]

lemma sqDist_eq_zero_iff (p q : ℚ × ℚ) : sqDist p q = 0 ↔ p = q := by
  constructor
  · intro h
    have h1 : (p.1 - q.1) ^ 2 = 0 ∧ (p.2 - q.2) ^ 2 = 0 :=
      (add_eq_zero_iff_of_nonneg (sq_nonneg _) (sq_nonneg _)).mp h
    have e1 : p.1 = q.1 := by
      have := pow_eq_zero_iff (n := 2) (by norm_num) |>.mp h1.1
      linarith
    have e2 : p.2 = q.2 := by
      have := pow_eq_zero_iff (n := 2) (by norm_num) |>.mp h1.2
      linarith
    exact Prod.ext e1 e2
  · intro h
    rw [h]
    exact sqDist_self q

lemma sqDist_nonneg (p q : ℚ × ℚ) : 0 ≤ sqDist p q :=
  add_nonneg (sq_nonneg _) (sq_nonneg _)

/-- With pairwise distinct coordinates, the first neighbor the k-d tree
query reports for a station is the station itself (distance 0 beats every
other station's strictly positive distance). -/
lemma sortedNeighbors_head (coords : Fin n → ℚ × ℚ) (i : Fin n)
    (hdist : ∀ j : Fin n, coords j = coords i → j = i) :
    (sortedNeighbors coords i).head? = some i := by
  have hm : i ∈ sortedNeighbors coords i := by
    simp [sortedNeighbors]
  have hsorted : List.Sorted (nnLE (nnKey coords i)) (sortedNeighbors coords i) :=
    List.sorted_insertionSort _ _
  have hnodup : (sortedNeighbors coords i).Nodup :=
    (sortedNeighbors_perm coords i).nodup_iff.mpr (List.nodup_finRange n)
  cases hl : sortedNeighbors coords i with
  | nil => rw [hl] at hm; simp at hm
  | cons a t =>
    rw [hl] at hm hsorted hnodup
    rcases List.mem_cons.mp hm with rfl | hmem
    · rfl
    · exfalso
      have hne : a ≠ i := by
        rintro rfl
        exact (List.nodup_cons.mp hnodup).1 hmem
      have hrel : nnLE (nnKey coords i) a i :=
        List.rel_of_sorted_cons hsorted i hmem
      have hpos : 0 < sqDist (coords i) (coords a) := by
        rcases lt_or_eq_of_le (sqDist_nonneg (coords i) (coords a)) with h | h
        · exact h
        · exact absurd (hdist a ((sqDist_eq_zero_iff _ _).mp h.symm).symm) hne
      rcases hrel with h | ⟨h, _⟩
      · simp only [nnKey, sqDist_self] at h
        exact absurd (h.trans hpos) (lt_irrefl _)
      · simp only [nnKey, sqDist_self] at h
        exact absurd (h ▸ hpos) (lt_irrefl _)

lemma take_head? {α : Type} (l : List α) {k : ℕ} (hk : 1 ≤ k) :
    (l.take k).head? = l.head? := by
  cases l with
  | nil => simp
  | cons a t =>
    obtain ⟨k', rfl⟩ := Nat.exists_eq_add_of_le hk
    simp [List.take_cons]

/-! ## Least-squares fit (`numpy.polyfit(x, y, 1)`) -/

/-- Sum of the x (elevation) column. -/
def sX (pts : List (ℚ × ℚ)) : ℚ := (pts.map Prod.fst).sum

/-- Sum of the y (value) column. -/
def sY (pts : List (ℚ × ℚ)) : ℚ := (pts.map Prod.snd).sum

/-- Sum of squared x. -/
def sXX (pts : List (ℚ × ℚ)) : ℚ := (pts.map (fun p => p.1 * p.1)).sum

/-- Sum of x·y. -/
def sXY (pts : List (ℚ × ℚ)) : ℚ := (pts.map (fun p => p.1 * p.2)).sum

/-- Determinant of the degree-1 normal equations; the fit is nondegenerate
exactly when it is nonzero. -/
def fitDen (pts : List (ℚ × ℚ)) : ℚ :=
  (pts.length : ℚ) * sXX pts - sX pts * sX pts

/-- `numpy.polyfit(x, y, 1)` as used by `Grid.get_fit_params` and
`Grid.detrended_interpolation_mask`: the least-squares (slope, intercept),
in closed normal-equation form, faithful to `polyfit` whenever the design
is nondegenerate (`fitDen ≠ 0`). -/
def polyfit1 (pts : List (ℚ × ℚ)) : ℚ × ℚ :=
  let slope := ((pts.length : ℚ) * sXY pts - sX pts * sY pts) / fitDen pts
  (slope, (sY pts - slope * sX pts) / (pts.length : ℚ))

/-- Sum of squared residuals of the line `(slope, intercept) = sl` over the
point list: the quantity least squares minimizes. -/
def sqErrSum (pts : List (ℚ × ℚ)) (sl : ℚ × ℚ) : ℚ :=
  (pts.map (fun p => (p.2 - (sl.1 * p.1 + sl.2)) ^ 2)).sum

/-- Trend-sign constraint (`constrain_trend`): `1` keeps only non-negative
slopes, `-1` only non-positive slopes; a violating fit is replaced by the
flat pair `(0, 0)`, exactly as in `Grid.detrended_interpolation_mask`
lines 200–203 and `Grid.detrended_interpolation_local` lines 152–155. -/
def applyConstraint (c : ℤ) (pv : ℚ × ℚ) : ℚ × ℚ :=
  if c = 1 ∧ pv.1 < 0 then (0, 0)
  else if c = -1 ∧ 0 < pv.1 then (0, 0)
  else pv

/-! ## The two detrending paths of `Grid` -/

/-- Stations whose mask bit was set at initialization. -/
def maskedStations (mask : Fin n → Bool) : List (Fin n) :=
  (List.finRange n).filter (fun i => mask i)

/-- The (elevation, value) pairs regression is restricted to in the global
path: `self.mz[self.mask]`, `data[self.mask]`. -/
def maskedPts (md : Metadata n) (mask : Fin n → Bool) (data : Fin n → ℚ) :
    List (ℚ × ℚ) :=
  (maskedStations mask).map (fun i => (md.elevation i, data i))

/-- The point list the Delaunay triangulation is built over: the projected
station coordinates, in station order (`self.mx, self.my` equal
`metadata.utm_x.values, metadata.utm_y.values`). -/
def buildTri (md : Metadata n) : List (ℚ × ℚ) :=
  (List.finRange n).map (fun i => utmCoords md i)

/-- `Grid.detrended_interpolation_mask` at one raster cell with DEM
elevation `z`: fit the masked stations, apply the trend constraint, detrend
every station, interpolate the residuals (weights `W` applied to the
station points), and re-add `slope·z + intercept`. -/
def detrended_interpolation_mask (W : List (ℚ × ℚ) → Fin n → ℚ) (md : Metadata n)
    (mask : Fin n → Bool) (data : Fin n → ℚ) (constrain_trend : ℤ) (z : ℚ) : ℚ :=
  let pv := applyConstraint constrain_trend (polyfit1 (maskedPts md mask data))
  let w := W (buildTri md)
  (∑ i, w i * (data i - (md.elevation i * pv.1 + pv.2))) + pv.1 * z + pv.2

/-- The (elevation, value) pairs of station `i`'s local neighborhood: the
group `Grid.get_fit_params` is applied to. -/
def localGroup (s : GridState n) (data : Fin n → ℚ) (i : Fin n) : List (ℚ × ℚ) :=
  (s.full_df i).map (fun j => (s.md.elevation j, data j))

/-- Per-station constrained local fit (slope, intercept). -/
def localFit (s : GridState n) (data : Fin n → ℚ) (c : ℤ) (i : Fin n) : ℚ × ℚ :=
  applyConstraint c (polyfit1 (localGroup s data i))

/-- Per-station residual of the local path.  After
`drop_duplicates(subset=["cell_id"], keep="first")` the row kept for
station `i` carries the elevation and value of the FIRST member of its
neighbor list, so the residual is computed from that member's data. -/
def localResidual (s : GridState n) (data : Fin n → ℚ) (c : ℤ) (i : Fin n) : ℚ :=
  match (s.full_df i).head? with
  | some j =>
      data j - (s.md.elevation j * (localFit s data c i).1 + (localFit s data c i).2)
  | none => 0

/-- `Grid.detrended_interpolation_local` at one raster cell with DEM
elevation `z`: per-station local fits, residuals, then interpolation of the
slope, intercept and residual fields over the lazily built triangulation
(built on first use from the projected coordinates, cached in the returned
state), reconstructed as `resid + slope·z + intercept`. -/
def detrended_interpolation_local (W : List (ℚ × ℚ) → Fin n → ℚ) (s : GridState n)
    (data : Fin n → ℚ) (c : ℤ) (z : ℚ) : GridState n × ℚ :=
  let t := s.tri.getD (buildTri s.md)
  let w := W t
  ({ s with tri := some t },
    (∑ i, w i * localResidual s data c i)
      + (∑ i, w i * (localFit s data c i).1) * z
      + (∑ i, w i * (localFit s data c i).2))

/-- `Grid.detrended_interpolation`: dispatch between the local and the
global (masked) detrending paths on `config["grid_local"]`. -/
def detrended_interpolation (grid_local : Bool) (W : List (ℚ × ℚ) → Fin n → ℚ)
    (s : GridState n) (data : Fin n → ℚ) (c : ℤ) (z : ℚ) : GridState n × ℚ :=
  if grid_local then detrended_interpolation_local W s data c z
  else (s, detrended_interpolation_mask W s.md s.mask data c z)

/-! ## Dispatcher (`variable_base.py` / `image_data.py`) -/

/-- The strategy instance `_initialize` constructs, one variant per
recognized `distribution` method name. -/
inductive Strategy where
  | idw : Strategy
  | dk : Strategy
  | grid : Strategy
  | kriging : Strategy
deriving DecidableEq

/-- `VariableBase._initialize` / `ImageData._initialize`: when the
configuration has a `distribution` key, construct exactly one strategy
instance for a recognized method name, and raise for any other name; with
no `distribution` key nothing is constructed and nothing is raised. -/
def initializeDispatch (distribution : Option String) : Except String (Option Strategy) :=
  match distribution with
  | none => Except.ok none
  | some m =>
    if m = "idw" then Except.ok (some Strategy.idw)
    else if m = "dk" then Except.ok (some Strategy.dk)
    else if m = "grid" then Except.ok (some Strategy.grid)
    else if m = "kriging" then Except.ok (some Strategy.kriging)
    else Except.error "Could not determine the distribution method"

/-- Count of null entries of a station-value row:
`np.sum(data.isnull())`. -/
def countNull (row : List (Option ℚ)) : ℕ :=
  row.countP (fun x => x.isNone)

/-- `_distribute` for one time step: reject the row when every value is
null (`np.sum(data.isnull()) == data.shape[0]`) BEFORE any strategy runs,
otherwise hand the row to the selected strategy. `R` is the raster type,
`strategy` the `calculate` call of the strategy instance. -/
def distributeResult {R : Type} (row : List (Option ℚ)) (strategy : List (Option ℚ) → R) :
    Except String R :=
  if countNull row = row.length then
    Except.error "All data values are NaN"
  else
    Except.ok (strategy row)

/-- The variable's stored output attribute after `_distribute`: a raised
exception propagates before the final `setattr`, leaving the previously
stored value in place; on success the strategy raster is stored. -/
def attrAfterDistribute {R : Type} (attr : Option R) (row : List (Option ℚ))
    (strategy : List (Option ℚ) → R) : Option R :=
  match distributeResult row strategy with
  | Except.error _ => attr
  | Except.ok v => some v

/-- Clamp of one raster element to the configured bounds. -/
def clamp1 (minV maxV v : ℚ) : ℚ :=
  if v < minV then minV else if maxV < v then maxV else v

/-- Modelled from the spec: `smrf.utils.utils.set_min_max` is imported by
every `distribute` method but `smrf/utils/utils.py` is not among the
sources; the spec specifies element-wise truncation of the raster to
`[min, max]` (values outside are truncated to the bound, not dropped). -/
def set_min_max (data : List ℚ) (minV maxV : ℚ) : List ℚ :=
  data.map (clamp1 minV maxV)

/-- `ta.distribute` (air_temp.py lines 61–75): run `_distribute`, then
store the clamped raster; when `_distribute` raises, the clamping is never
reached and the stored attribute keeps its previous value. -/
def taDistribute (attr : Option (List ℚ)) (row : List (Option ℚ))
    (strategy : List (Option ℚ) → List ℚ) (minV maxV : ℚ) : Option (List ℚ) :=
  match distributeResult row strategy with
  | Except.error _ => attr
  | Except.ok v => some (set_min_max v minV maxV)

/-! ## Least-squares facts about `polyfit1` -/

lemma sX_cons (p : ℚ × ℚ) (l : List (ℚ × ℚ)) : sX (p :: l) = p.1 + sX l := by
  simp [sX]

lemma sY_cons (p : ℚ × ℚ) (l : List (ℚ × ℚ)) : sY (p :: l) = p.2 + sY l := by
  simp [sY]

lemma sXX_cons (p : ℚ × ℚ) (l : List (ℚ × ℚ)) : sXX (p :: l) = p.1 * p.1 + sXX l := by
  simp [sXX]

lemma sXY_cons (p : ℚ × ℚ) (l : List (ℚ × ℚ)) : sXY (p :: l) = p.1 * p.2 + sXY l := by
  simp [sXY]

lemma resid_sum (pts : List (ℚ × ℚ)) (s t : ℚ) :
    (pts.map (fun p => p.2 - (s * p.1 + t))).sum
      = sY pts - s * sX pts - (pts.length : ℚ) * t := by
  induction pts with
  | nil => simp [sY, sX]
  | cons p l ih =>
    simp only [List.map_cons, List.sum_cons, ih, sY_cons, sX_cons, List.length_cons]
    push_cast
    ring

lemma residx_sum (pts : List (ℚ × ℚ)) (s t : ℚ) :
    (pts.map (fun p => p.1 * (p.2 - (s * p.1 + t)))).sum
      = sXY pts - s * sXX pts - t * sX pts := by
  induction pts with
  | nil => simp [sXY, sXX, sX]
  | cons p l ih =>
    simp only [List.map_cons, List.sum_cons, ih, sXY_cons, sXX_cons, sX_cons]
    ring

lemma length_ne_zero_of_fitDen {pts : List (ℚ × ℚ)} (h : fitDen pts ≠ 0) :
    (pts.length : ℚ) ≠ 0 := by
  intro hm
  apply h
  have hnil : pts = [] := by
    cases pts with
    | nil => rfl
    | cons p l =>
      exfalso
      rw [List.length_cons] at hm
      exact absurd hm (by push_cast; positivity)
  subst hnil
  simp [fitDen, sX, sXX]

lemma polyfit1_normal_eq1 (pts : List (ℚ × ℚ)) (h : fitDen pts ≠ 0) :
    (pts.map (fun p => p.2 - ((polyfit1 pts).1 * p.1 + (polyfit1 pts).2))).sum = 0 := by
  have hm := length_ne_zero_of_fitDen h
  rw [resid_sum]
  simp only [polyfit1]
  field_simp
  ring

lemma polyfit1_normal_eq2 (pts : List (ℚ × ℚ)) (h : fitDen pts ≠ 0) :
    (pts.map (fun p => p.1 * (p.2 - ((polyfit1 pts).1 * p.1 + (polyfit1 pts).2)))).sum
      = 0 := by
  have hm := length_ne_zero_of_fitDen h
  rw [residx_sum]
  simp only [polyfit1, fitDen] at h ⊢
  field_simp
  ring

lemma sqErr_expand (pts : List (ℚ × ℚ)) (a b s t : ℚ) :
    sqErrSum pts (a, b)
      = sqErrSum pts (s, t)
        + 2 * (s - a) * (pts.map (fun p => p.1 * (p.2 - (s * p.1 + t)))).sum
        + 2 * (t - b) * (pts.map (fun p => p.2 - (s * p.1 + t))).sum
        + (pts.map (fun p => ((s - a) * p.1 + (t - b)) ^ 2)).sum := by
  induction pts with
  | nil => simp [sqErrSum]
  | cons p l ih =>
    simp only [sqErrSum, List.map_cons, List.sum_cons] at ih ⊢
    linear_combination ih

/-- `polyfit1` minimizes the sum of squared residuals whenever the design
is nondegenerate: the least-squares property of `numpy.polyfit(x, y, 1)`. -/
lemma polyfit1_lsq (pts : List (ℚ × ℚ)) (h : fitDen pts ≠ 0) (a b : ℚ) :
    sqErrSum pts (polyfit1 pts) ≤ sqErrSum pts (a, b) := by
  have h1 := polyfit1_normal_eq1 pts h
  have h2 := polyfit1_normal_eq2 pts h
  have hexp := sqErr_expand pts a b (polyfit1 pts).1 (polyfit1 pts).2
  rw [h1, h2] at hexp
  have hnn : 0 ≤ (pts.map
      (fun p => (((polyfit1 pts).1 - a) * p.1 + ((polyfit1 pts).2 - b)) ^ 2)).sum := by
    refine List.sum_nonneg ?_
    intro q hq
    obtain ⟨p, _, rfl⟩ := List.mem_map.mp hq
    positivity
  calc sqErrSum pts (polyfit1 pts)
      ≤ sqErrSum pts ((polyfit1 pts).1, (polyfit1 pts).2) + 2 * ((polyfit1 pts).1 - a) * 0
          + 2 * ((polyfit1 pts).2 - b) * 0
          + (pts.map
              (fun p => (((polyfit1 pts).1 - a) * p.1 + ((polyfit1 pts).2 - b)) ^ 2)).sum := by
        simp only [mul_zero, add_zero]
        linarith
    _ = sqErrSum pts (a, b) := hexp.symm

/-! ## The concrete three-station scenario of the spec -/

/-- Metadata of the concrete scenario: three stations at elevations 100,
500, 900 with distinct coordinates. -/
def md3 : Metadata 3 where
  latitude := ![0, 0, 0]
  longitude := ![0, 1, 2]
  utm_x := ![0, 100, 200]
  utm_y := ![0, 0, 0]
  elevation := ![100, 500, 900]

/-- Scenario station values 10, 6, 2: a perfect linear decrease. -/
def data3 : Fin 3 → ℚ := ![10, 6, 2]

/-- All-true mask (the `grid_mask = False` initialization). -/
def maskAllB (n : ℕ) : Fin n → Bool := fun _ => true

/-- The masked (elevation, value) pairs of the scenario. -/
def scenarioPts : List (ℚ × ℚ) := maskedPts md3 (maskAllB 3) data3

lemma scenarioPts_eval : scenarioPts = [(100, 10), (500, 6), (900, 2)] := by
  norm_num [scenarioPts, maskedPts, maskedStations, List.finRange, maskAllB, md3, data3]

lemma scenario_fit : polyfit1 scenarioPts = (-(1 / 100), 11) := by
  rw [scenarioPts_eval]
  norm_num [polyfit1, sX, sY, sXX, sXY, fitDen, Prod.ext_iff]

/-- C1: the global detrended interpolation fits (slope, intercept) by
least-squares regression of values against elevations restricted to masked
stations, computes per-station residuals, and returns
residual-interpolation + slope·DEM + intercept; on the concrete
three-station scenario (elevations 100/500/900, values 10/6/2, no
constraint) the fit is slope = −1/100, intercept = 11, all residuals are 0,
and the output is the linear trend at every DEM cell. -/
theorem c1_global_detrended_interpolation :
    (∀ (n : ℕ) (md : Metadata n) (mask : Fin n → Bool) (data : Fin n → ℚ),
        fitDen (maskedPts md mask data) ≠ 0 →
        2 ≤ (maskedPts md mask data).length →
        ∀ a b : ℚ,
          sqErrSum (maskedPts md mask data) (polyfit1 (maskedPts md mask data))
            ≤ sqErrSum (maskedPts md mask data) (a, b)) ∧
    (∀ (n : ℕ) (md : Metadata n) (mask : Fin n → Bool) (data : Fin n → ℚ)
        (W : List (ℚ × ℚ) → Fin n → ℚ) (z : ℚ),
        detrended_interpolation_mask W md mask data 0 z
          = (∑ i, W (buildTri md) i *
              (data i - (md.elevation i * (polyfit1 (maskedPts md mask data)).1
                + (polyfit1 (maskedPts md mask data)).2)))
            + (polyfit1 (maskedPts md mask data)).1 * z
            + (polyfit1 (maskedPts md mask data)).2) ∧
    polyfit1 scenarioPts = (-(1 / 100), 11) ∧
    (∀ i : Fin 3,
        data3 i - (md3.elevation i * (polyfit1 scenarioPts).1
          + (polyfit1 scenarioPts).2) = 0) ∧
    (∀ (W : List (ℚ × ℚ) → Fin 3 → ℚ) (z : ℚ),
        detrended_interpolation_mask W md3 (maskAllB 3) data3 0 z = -(1 / 100) * z + 11) := by
  have hresid : ∀ i : Fin 3,
      data3 i - (md3.elevation i * (polyfit1 scenarioPts).1
        + (polyfit1 scenarioPts).2) = 0 := by
    intro i
    rw [scenario_fit]
    fin_cases i <;> norm_num [data3, md3]
  refine ⟨fun n md mask data hden _ a b => polyfit1_lsq _ hden a b,
    fun n md mask data W z => ?_, scenario_fit, hresid, fun W z => ?_⟩
  · simp only [detrended_interpolation_mask, applyConstraint]
    norm_num
  · simp only [detrended_interpolation_mask, applyConstraint]
    norm_num
    have hz : ∀ i : Fin 3,
        W (buildTri md3) i * (data3 i - (md3.elevation i * (polyfit1 scenarioPts).1
          + (polyfit1 scenarioPts).2)) = 0 := by
      intro i
      rw [hresid i, mul_zero]
    rw [show maskedPts md3 (maskAllB 3) data3 = scenarioPts from rfl, scenario_fit]
    have hsum : (∑ i : Fin 3, W (buildTri md3) i *
        (data3 i - (md3.elevation i * (-(1 / 100) : ℚ) + 11))) = 0 := by
      refine Finset.sum_eq_zero ?_
      intro i _
      have := hz i
      rw [scenario_fit] at this
      simpa using this
    rw [hsum]
    ring

/-- C1 witness: the least-squares bound and the reconstructed trend
evaluated on the concrete scenario. -/
theorem c1_witness :
    sqErrSum scenarioPts (polyfit1 scenarioPts) ≤ sqErrSum scenarioPts (0, 0) ∧
    detrended_interpolation_mask (fun _ _ => (1 : ℚ) / 3) md3 (maskAllB 3) data3 0 500
      = 6 := by
  constructor
  · exact c1_global_detrended_interpolation.1 3 md3 (maskAllB 3) data3
      (by rw [show maskedPts md3 (maskAllB 3) data3 = scenarioPts from rfl,
            scenarioPts_eval]
          norm_num [fitDen, sX, sXX])
      (by rw [show maskedPts md3 (maskAllB 3) data3 = scenarioPts from rfl,
            scenarioPts_eval]
          norm_num) 0 0
  · rw [c1_global_detrended_interpolation.2.2.2.2 (fun _ _ => (1 : ℚ) / 3) 500]
    norm_num

/-- C2: a fitted trend violating the configured sign constraint (positive
only but negative slope, or negative only but positive slope) is replaced
by the flat pair (0, 0) — never a clipped slope — and a satisfying fit is
left unchanged; consequently, under a violated constraint both detrending
paths produce an output independent of the DEM elevation. -/
theorem c2_trend_sign_constraint :
    (∀ pv : ℚ × ℚ, pv.1 < 0 → applyConstraint 1 pv = (0, 0)) ∧
    (∀ pv : ℚ × ℚ, 0 < pv.1 → applyConstraint (-1) pv = (0, 0)) ∧
    (∀ (c : ℤ) (pv : ℚ × ℚ), ¬(c = 1 ∧ pv.1 < 0) → ¬(c = -1 ∧ 0 < pv.1) →
        applyConstraint c pv = pv) ∧
    (∀ (c : ℤ) (pv : ℚ × ℚ),
        applyConstraint c pv = pv ∨ applyConstraint c pv = (0, 0)) ∧
    (∀ (n : ℕ) (W : List (ℚ × ℚ) → Fin n → ℚ) (md : Metadata n)
        (mask : Fin n → Bool) (data : Fin n → ℚ) (z z' : ℚ),
        (polyfit1 (maskedPts md mask data)).1 < 0 →
        detrended_interpolation_mask W md mask data 1 z
          = detrended_interpolation_mask W md mask data 1 z') ∧
    (∀ (n : ℕ) (W : List (ℚ × ℚ) → Fin n → ℚ) (s : GridState n)
        (data : Fin n → ℚ) (z z' : ℚ),
        (∀ i : Fin n, (polyfit1 (localGroup s data i)).1 < 0) →
        (detrended_interpolation_local W s data 1 z).2
          = (detrended_interpolation_local W s data 1 z').2) := by
  refine ⟨?_, ?_, ?_, ?_, ?_, ?_⟩
  · intro pv h
    simp [applyConstraint, h]
  · intro pv h
    simp [applyConstraint, h, asymm h]
  · intro c pv h1 h2
    simp only [applyConstraint, if_neg h1, if_neg h2]
  · intro c pv
    by_cases h1 : c = 1 ∧ pv.1 < 0
    · right; simp [applyConstraint, h1]
    · by_cases h2 : c = -1 ∧ 0 < pv.1
      · right; simp only [applyConstraint, if_neg h1, if_pos h2]
      · left; simp only [applyConstraint, if_neg h1, if_neg h2]
  · intro n W md mask data z z' hslope
    have hflat : applyConstraint 1 (polyfit1 (maskedPts md mask data)) = (0, 0) := by
      simp [applyConstraint, hslope]
    simp only [detrended_interpolation_mask, hflat]
    simp [mul_zero, sub_zero]
  · intro n W s data z z' hslope
    have hflat : ∀ i : Fin n, localFit s data 1 i = (0, 0) := by
      intro i
      simp [localFit, applyConstraint, hslope i]
    simp only [detrended_interpolation_local, hflat]
    simp [mul_zero, Finset.sum_const_zero]

/-- C2 witness: the scenario's negative fitted slope under a positive-only
constraint yields an elevation-independent raster, and the constraint
resets a concrete violating fit to (0, 0). -/
theorem c2_witness :
    applyConstraint 1 (-(1 / 100), 11) = ((0 : ℚ), (0 : ℚ)) ∧
    detrended_interpolation_mask (fun _ _ => (1 : ℚ) / 3) md3 (maskAllB 3) data3 1 100
      = detrended_interpolation_mask (fun _ _ => (1 : ℚ) / 3) md3 (maskAllB 3) data3 1 900 := by
  constructor
  · exact c2_trend_sign_constraint.1 (-(1 / 100), 11) (by norm_num)
  · exact c2_trend_sign_constraint.2.2.2.2.1 3 (fun _ _ => (1 : ℚ) / 3) md3 (maskAllB 3)
      data3 100 900
      (by rw [show maskedPts md3 (maskAllB 3) data3 = scenarioPts from rfl, scenario_fit]
          norm_num)

/-- `polyfit1` only looks at sums over the point list, so it is invariant
under reordering the stations of a group. -/
lemma polyfit1_perm {α : Type} {l l' : List α} (h : l.Perm l') (f : α → ℚ × ℚ) :
    polyfit1 (l.map f) = polyfit1 (l'.map f) := by
  have hmap := h.map f
  have hlen : (l.map f).length = (l'.map f).length := hmap.length_eq
  have h1 : sX (l.map f) = sX (l'.map f) := (hmap.map Prod.fst).sum_eq
  have h2 : sY (l.map f) = sY (l'.map f) := (hmap.map Prod.snd).sum_eq
  have h3 : sXX (l.map f) = sXX (l'.map f) := by
    unfold sXX
    exact ((hmap.map (fun p => p.1 * p.1))).sum_eq
  have h4 : sXY (l.map f) = sXY (l'.map f) := by
    unfold sXY
    exact ((hmap.map (fun p => p.1 * p.2))).sum_eq
  simp only [polyfit1, fitDen, hlen, h1, h2, h3, h4]

/-- C3 counterexample: for three stations at distinct coordinates with
`k = 2`, initialization succeeds and the neighborhood of station 0 contains
station 0 itself — the station's own pair IS a member of its own
neighborhood, contrary to the claim. -/
theorem c3_counterexample :
    gridInit md3 2 (maskAllB 3) = some (mkLocalState md3 2 (maskAllB 3)) ∧
    (0 : Fin 3) ∈ (mkLocalState md3 2 (maskAllB 3)).full_df 0 := by
  refine ⟨gridInit_of_le md3 (by norm_num) (maskAllB 3), ?_⟩
  have heval : (mkLocalState md3 2 (maskAllB 3)).full_df 0 = [0, 1] := by
    norm_num [mkLocalState, sortedNeighbors, List.finRange, List.insertionSort,
      List.orderedInsert, nnLE, nnKey, sqDist, latlonCoords, md3, Fin.ext_iff]
  rw [heval]
  simp

/-- C3 (amended): when `grid_local` is enabled and the station coordinates
are pairwise distinct, every station's local neighborhood is its `k`
nearest stations INCLUDING itself: the station is always the first member
of its own neighborhood, and the neighborhood size is `min k n`, fixed at
initialization. -/
theorem c3_local_neighborhood_includes_self :
    ∀ (n : ℕ) (md : Metadata n) (k : ℕ) (mask : Fin n → Bool) (s : GridState n),
      gridInit md k mask = some s →
      (∀ i j : Fin n, latlonCoords md i = latlonCoords md j → i = j) →
      1 ≤ k →
      ∀ i : Fin n,
        (s.full_df i).head? = some i ∧ i ∈ s.full_df i ∧
        (s.full_df i).length = min k n := by
  intro n md k mask s heq hinj hk i
  have hn : 1 ≤ n := i.pos
  have hkn : k ≤ n := by
    by_contra hgt
    rw [gridInit_of_gt md (lt_of_not_le hgt) hn mask] at heq
    exact Option.noConfusion heq
  rw [gridInit_of_le md hkn mask] at heq
  have hs : s = mkLocalState md k mask := by
    exact (Option.some.injEq _ _ ▸ heq.symm : _)
  subst hs
  have hfd : (mkLocalState md k mask).full_df i
      = (sortedNeighbors (latlonCoords md) i).take k := rfl
  have hhead : ((sortedNeighbors (latlonCoords md) i).take k).head?
      = some i := by
    rw [take_head? _ hk]
    exact sortedNeighbors_head (latlonCoords md) i (fun j hj => hinj j i hj)
  refine ⟨by rw [hfd]; exact hhead, ?_, ?_⟩
  · rw [hfd]
    exact List.mem_of_mem_head? (hhead ▸ rfl)
  · rw [hfd, List.length_take, sortedNeighbors_length]

/-- C3 witness: the amended statement evaluated on the concrete
three-station set with `k = 2`. -/
theorem c3_witness :
    ((mkLocalState md3 2 (maskAllB 3)).full_df 0).head? = some 0 ∧
    (0 : Fin 3) ∈ (mkLocalState md3 2 (maskAllB 3)).full_df 0 ∧
    ((mkLocalState md3 2 (maskAllB 3)).full_df 0).length = min 2 3 :=
  c3_local_neighborhood_includes_self 3 md3 2 (maskAllB 3)
    (mkLocalState md3 2 (maskAllB 3))
    (gridInit_of_le md3 (by norm_num) (maskAllB 3))
    (by intro i j h
        fin_cases i <;> fin_cases j <;>
          simp_all [latlonCoords, md3, Prod.ext_iff, Fin.ext_iff])
    (by norm_num) 0

/-- C4 counterexample: with 3 stations and `grid_local_n = 4`, the local
path FAILS at initialization — scipy pads the neighbor query with the
out-of-range index 3 and the metadata lookup raises — refuting "for k
greater than or equal to the number of available stations the local path
does not fail". -/
theorem c4_counterexample : gridInit md3 4 (maskAllB 3) = none :=
  gridInit_of_gt md3 (by norm_num) (by norm_num) (maskAllB 3)

/-- C4 (amended): initialization of the local path succeeds exactly for
`k ≤ n` (for `k > n ≥ 1` the neighbor lookup goes out of range and the
path fails); and when `k` equals the station count, the mask includes all
stations, the station coordinates are pairwise distinct, and the
interpolation weights at the cell sum to 1, the local-detrend output
equals the global-detrend output. -/
theorem c4_local_global_equivalence :
    (∀ (n : ℕ) (md : Metadata n) (k : ℕ) (mask : Fin n → Bool),
        k ≤ n → (gridInit md k mask).isSome) ∧
    (∀ (n : ℕ) (md : Metadata n) (k : ℕ) (mask : Fin n → Bool),
        n < k → 1 ≤ n → gridInit md k mask = none) ∧
    (∀ (n : ℕ) (md : Metadata n) (mask : Fin n → Bool) (data : Fin n → ℚ)
        (c : ℤ) (W : List (ℚ × ℚ) → Fin n → ℚ) (z : ℚ) (s : GridState n),
        gridInit md n mask = some s →
        (∀ i j : Fin n, latlonCoords md i = latlonCoords md j → i = j) →
        (∀ i : Fin n, mask i = true) →
        (∑ i, W (buildTri md) i) = 1 →
        (detrended_interpolation_local W s data c z).2
          = detrended_interpolation_mask W md mask data c z) := by
  refine ⟨?_, ?_, ?_⟩
  · intro n md k mask hk
    rw [gridInit_of_le md hk mask]
    rfl
  · intro n md k mask hk hn
    exact gridInit_of_gt md hk hn mask
  · intro n md mask data c W z s heq hinj hmask hW
    rw [gridInit_of_le md (le_refl n) mask] at heq
    have hs : s = mkLocalState md n mask := by
      exact (Option.some.injEq _ _ ▸ heq.symm : _)
    subst hs
    -- every neighborhood is the whole (sorted) station list
    have hfd : ∀ i : Fin n, (mkLocalState md n mask).full_df i
        = sortedNeighbors (latlonCoords md) i := by
      intro i
      show (sortedNeighbors (latlonCoords md) i).take n = _
      exact List.take_of_length_le (le_of_eq (sortedNeighbors_length _ _))
    -- the masked station list is the full station list
    have hms : maskedStations mask = List.finRange n := by
      refine List.filter_eq_self.mpr ?_
      intro a _
      simp [hmask a]
    -- every local group is a permutation of the masked points
    have hfit : ∀ i : Fin n,
        polyfit1 (localGroup (mkLocalState md n mask) data i)
          = polyfit1 (maskedPts md mask data) := by
      intro i
      have hperm : (sortedNeighbors (latlonCoords md) i).Perm (List.finRange n) :=
        sortedNeighbors_perm _ i
      have hlg : localGroup (mkLocalState md n mask) data i
          = (sortedNeighbors (latlonCoords md) i).map
              (fun j => (md.elevation j, data j)) := by
        unfold localGroup
        rw [hfd i]
        rfl
      rw [hlg, maskedPts, hms]
      exact polyfit1_perm hperm _
    have hlf : ∀ i : Fin n, localFit (mkLocalState md n mask) data c i
        = applyConstraint c (polyfit1 (maskedPts md mask data)) := by
      intro i
      rw [localFit, hfit i]
    -- each residual matches the global residual of the same station
    have hres : ∀ i : Fin n,
        localResidual (mkLocalState md n mask) data c i
          = data i - (md.elevation i *
              (applyConstraint c (polyfit1 (maskedPts md mask data))).1
            + (applyConstraint c (polyfit1 (maskedPts md mask data))).2) := by
      intro i
      have hhead : ((mkLocalState md n mask).full_df i).head? = some i := by
        rw [hfd i]
        exact sortedNeighbors_head (latlonCoords md) i (fun j hj => hinj j i hj)
      rw [localResidual, hhead, hlf i]
      rfl
    -- the lazily built triangulation is the one the global path uses
    have hmd : (mkLocalState md n mask).md = md := rfl
    have htri0 : (mkLocalState md n mask).tri = none := rfl
    set pv := applyConstraint c (polyfit1 (maskedPts md mask data)) with hpv
    simp only [detrended_interpolation_local, detrended_interpolation_mask, htri0,
      hmd, Option.getD_none]
    have e1 : (∑ i, W (buildTri md) i * localResidual (mkLocalState md n mask) data c i)
        = ∑ i, W (buildTri md) i * (data i - (md.elevation i * pv.1 + pv.2)) :=
      Finset.sum_congr rfl (fun i _ => by rw [hres i])
    have e2 : (∑ i, W (buildTri md) i * (localFit (mkLocalState md n mask) data c i).1)
        = (∑ i, W (buildTri md) i) * pv.1 := by
      rw [Finset.sum_mul]
      exact Finset.sum_congr rfl (fun i _ => by rw [hlf i])
    have e3 : (∑ i, W (buildTri md) i * (localFit (mkLocalState md n mask) data c i).2)
        = (∑ i, W (buildTri md) i) * pv.2 := by
      rw [Finset.sum_mul]
      exact Finset.sum_congr rfl (fun i _ => by rw [hlf i])
    rw [e1, e2, e3, hW, one_mul, one_mul]

/-- C4 witness: the equivalence evaluated on the concrete three-station
set with `k = n = 3` and uniform barycentric weights. -/
theorem c4_witness :
    (detrended_interpolation_local (fun _ _ => (1 : ℚ) / 3)
        (mkLocalState md3 3 (maskAllB 3)) data3 0 500).2
      = detrended_interpolation_mask (fun _ _ => (1 : ℚ) / 3) md3 (maskAllB 3)
          data3 0 500 :=
  c4_local_global_equivalence.2.2 3 md3 (maskAllB 3) data3 0
    (fun _ _ => (1 : ℚ) / 3) 500 (mkLocalState md3 3 (maskAllB 3))
    (gridInit_of_le md3 (by norm_num) (maskAllB 3))
    (by intro i j h
        fin_cases i <;> fin_cases j <;>
          simp_all [latlonCoords, md3, Prod.ext_iff, Fin.ext_iff])
    (fun i => rfl)
    (by norm_num [Fin.sum_univ_three])

/-- C5: a row whose values are all null makes `_distribute` raise before
any strategy runs (the result does not depend on the strategy), leaving the
stored output attribute unchanged; a row with at least one non-null value
never raises the all-null exception. -/
theorem c5_all_null_failure :
    ∀ {R : Type} (row : List (Option ℚ)) (attr : Option R)
      (strategy : List (Option ℚ) → R),
      ((∀ x ∈ row, x = none) →
        distributeResult row strategy = Except.error "All data values are NaN" ∧
        attrAfterDistribute attr row strategy = attr ∧
        (∀ strategy' : List (Option ℚ) → R,
          distributeResult row strategy = distributeResult row strategy')) ∧
      ((∃ x ∈ row, x ≠ none) →
        distributeResult row strategy = Except.ok (strategy row)) := by
  intro R row attr strategy
  constructor
  · intro hall
    have hcount : countNull row = row.length := by
      refine List.countP_eq_length.mpr ?_
      intro a ha
      rw [hall a ha]
      rfl
    have herr : distributeResult row strategy
        = Except.error "All data values are NaN" := by
      unfold distributeResult
      rw [if_pos hcount]
    refine ⟨herr, ?_, ?_⟩
    · unfold attrAfterDistribute
      rw [herr]
    · intro strategy'
      have herr' : distributeResult row strategy'
          = Except.error "All data values are NaN" := by
        unfold distributeResult
        rw [if_pos hcount]
      rw [herr, herr']
  · rintro ⟨x, hx, hne⟩
    have hcount : countNull row ≠ row.length := by
      intro hcount
      have := List.countP_eq_length.mp hcount x hx
      exact hne (Option.isNone_iff_eq_none.mp (by simpa using this))
    unfold distributeResult
    rw [if_neg hcount]

/-- C5 witness: an all-null two-station row raises and keeps the stored
attribute; a row with one value present does not raise. -/
theorem c5_witness :
    (distributeResult [none, none] (fun _ => (0 : ℚ))
        = Except.error "All data values are NaN" ∧
      attrAfterDistribute (some (42 : ℚ)) [none, none] (fun _ => (0 : ℚ))
        = some 42) ∧
    distributeResult [some (5 : ℚ), none] (fun _ => (7 : ℚ)) = Except.ok 7 := by
  constructor
  · have h := (c5_all_null_failure [none, none] (some (42 : ℚ))
      (fun _ => (0 : ℚ))).1 (by intro x hx; simpa using hx)
    exact ⟨h.1, h.2.1⟩
  · exact (c5_all_null_failure [some (5 : ℚ), none] none (fun _ => (7 : ℚ))).2
      ⟨some 5, by simp⟩

/-- C6: with a `distribution` key present, initialization constructs
exactly one strategy instance for each of the four recognized method names
and raises a configuration error for every other name. -/
theorem c6_configuration_dispatch :
    (∀ m : String, m ∈ ["idw", "dk", "grid", "kriging"] →
        ∃ s : Strategy, initializeDispatch (some m) = Except.ok (some s)) ∧
    (∀ m : String, m ∉ ["idw", "dk", "grid", "kriging"] →
        initializeDispatch (some m)
          = Except.error "Could not determine the distribution method") ∧
    initializeDispatch (some "idw") = Except.ok (some Strategy.idw) ∧
    initializeDispatch (some "dk") = Except.ok (some Strategy.dk) ∧
    initializeDispatch (some "grid") = Except.ok (some Strategy.grid) ∧
    initializeDispatch (some "kriging") = Except.ok (some Strategy.kriging) ∧
    initializeDispatch none = Except.ok none := by
  refine ⟨?_, ?_, rfl, rfl, rfl, rfl, rfl⟩
  · intro m hm
    simp only [List.mem_cons, List.mem_singleton, List.not_mem_nil, or_false] at hm
    rcases hm with rfl | rfl | rfl | rfl
    · exact ⟨Strategy.idw, rfl⟩
    · exact ⟨Strategy.dk, rfl⟩
    · exact ⟨Strategy.grid, rfl⟩
    · exact ⟨Strategy.kriging, rfl⟩
  · intro m hm
    simp only [List.mem_cons, List.mem_singleton, List.not_mem_nil, or_false,
      not_or] at hm
    obtain ⟨h1, h2, h3, h4⟩ := hm
    show (if m = "idw" then Except.ok (some Strategy.idw)
      else if m = "dk" then Except.ok (some Strategy.dk)
      else if m = "grid" then Except.ok (some Strategy.grid)
      else if m = "kriging" then Except.ok (some Strategy.kriging)
      else Except.error "Could not determine the distribution method") = _
    rw [if_neg h1, if_neg h2, if_neg h3, if_neg h4]

/-- C6 witness: the four recognized names build their strategies and an
unknown name raises. -/
theorem c6_witness :
    (∃ s : Strategy, initializeDispatch (some "grid") = Except.ok (some s)) ∧
    initializeDispatch (some "nearest")
      = Except.error "Could not determine the distribution method" :=
  ⟨c6_configuration_dispatch.1 "grid" (by simp),
    c6_configuration_dispatch.2.1 "nearest" (by simp)⟩

/-- C7: the stored output of a successful distribution is the element-wise
truncation of the strategy raster to the configured bounds: elements below
`min` become `min`, elements above `max` become `max`, in-range elements
are unchanged, and every stored element lies inside `[min, max]`. -/
theorem c7_output_clamping :
    ∀ (raster : List ℚ) (minV maxV : ℚ), minV ≤ maxV →
      ∀ (attr : Option (List ℚ)) (row : List (Option ℚ))
        (strategy : List (Option ℚ) → List ℚ),
        distributeResult row strategy = Except.ok raster →
        (taDistribute attr row strategy minV maxV
            = some (set_min_max raster minV maxV) ∧
          (∀ v : ℚ, v < minV → clamp1 minV maxV v = minV) ∧
          (∀ v : ℚ, maxV < v → clamp1 minV maxV v = maxV) ∧
          (∀ v : ℚ, minV ≤ v → v ≤ maxV → clamp1 minV maxV v = v) ∧
          (∀ y ∈ set_min_max raster minV maxV, minV ≤ y ∧ y ≤ maxV)) := by
  intro raster minV maxV hle attr row strategy hok
  refine ⟨?_, ?_, ?_, ?_, ?_⟩
  · unfold taDistribute
    rw [hok]
  · intro v hv
    unfold clamp1
    rw [if_pos hv]
  · intro v hv
    unfold clamp1
    rw [if_neg (by linarith), if_pos hv]
  · intro v h1 h2
    unfold clamp1
    rw [if_neg (by linarith), if_neg (by linarith)]
  · intro y hy
    obtain ⟨v, _, rfl⟩ := List.mem_map.mp hy
    unfold clamp1
    by_cases h1 : v < minV
    · rw [if_pos h1]
      exact ⟨le_refl _, hle⟩
    · rw [if_neg h1]
      by_cases h2 : maxV < v
      · rw [if_pos h2]
        exact ⟨hle, le_refl _⟩
      · rw [if_neg h2]
        exact ⟨le_of_not_lt h1, le_of_not_lt h2⟩

/-- C7 witness: min = 0, max = 1, an interpolated −1/5 is stored as 0 and
an interpolated 2 as 1. -/
theorem c7_witness :
    taDistribute none [some 1] (fun _ => [-(1 / 5), 1 / 2, 2]) 0 1
      = some (set_min_max [-(1 / 5), 1 / 2, 2] 0 1) ∧
    set_min_max [-(1 / 5), 1 / 2, 2] 0 1 = [0, 1 / 2, 1] := by
  constructor
  · exact (c7_output_clamping [-(1 / 5), 1 / 2, 2] 0 1 (by norm_num) none [some 1]
      (fun _ => [-(1 / 5), 1 / 2, 2])
      (by unfold distributeResult countNull; norm_num)).1
  · norm_num [set_min_max, clamp1]

lemma gridState_ext {s t : GridState n} (h1 : s.md = t.md) (h2 : s.k = t.k)
    (h3 : s.full_df = t.full_df) (h4 : s.tri = t.tri) (h5 : s.mask = t.mask) :
    s = t := by
  cases s
  cases t
  simp_all

/-- Everything `gridInit` determines about a successfully built state. -/
lemma gridInit_inv {md : Metadata n} {k : ℕ} {mask : Fin n → Bool} {s : GridState n}
    (heq : gridInit md k mask = some s) :
    s.md = md ∧ s.k = k ∧ s.mask = mask ∧ s.tri = none ∧
    ∀ i : Fin n, s.full_df i = (sortedNeighbors (latlonCoords md) i).take k := by
  unfold gridInit at heq
  by_cases h : ∀ i : Fin n, (neighborRowFin md i k).isSome
  · rw [dif_pos h] at heq
    have hs := Option.some.inj heq
    subst hs
    refine ⟨rfl, rfl, rfl, rfl, ?_⟩
    intro i
    have hkn : k ≤ n := by
      by_contra hgt
      have hsome := h i
      rw [neighborRowFin_of_gt md i (lt_of_not_le hgt)] at hsome
      simp at hsome
    simp [neighborRowFin_of_le md i hkn]
  · rw [dif_neg h] at heq
    exact Option.noConfusion heq

/-- The state transition of one local-detrend call: the triangulation is
resolved (cached value, or freshly built from the projected coordinates)
and stored; nothing else changes. -/
lemma local_state_eq (W : List (ℚ × ℚ) → Fin n → ℚ) (s : GridState n)
    (data : Fin n → ℚ) (c : ℤ) (z : ℚ) :
    (detrended_interpolation_local W s data c z).1
      = { s with tri := some (s.tri.getD (buildTri s.md)) } := rfl

/-- C8 counterexample: after a successful initialization the triangulation
field is `None` — the triangulation is NOT constructed at initialization,
contrary to the claim; it is built lazily on the first local call. -/
theorem c8_counterexample :
    gridInit md3 2 (maskAllB 3) = some (mkLocalState md3 2 (maskAllB 3)) ∧
    (mkLocalState md3 2 (maskAllB 3)).tri = none :=
  ⟨gridInit_of_le md3 (by norm_num) (maskAllB 3), rfl⟩

/-- C8 (amended): the neighbor index (`full_df`) is fully built at
initialization; the triangulation is NOT built at initialization
(`tri = None`) but lazily on the first local-detrend call, from the
projected station coordinates; every later call reuses the cached
triangulation unchanged, and no call mutates the metadata, the neighbor
index, the neighbor count or the mask. -/
theorem c8_cached_structures :
    ∀ (n : ℕ) (md : Metadata n) (k : ℕ) (mask : Fin n → Bool) (s : GridState n),
      gridInit md k mask = some s →
      (s.tri = none ∧
        (∀ i : Fin n, s.full_df i = (sortedNeighbors (latlonCoords md) i).take k) ∧
        (∀ (W : List (ℚ × ℚ) → Fin n → ℚ) (data : Fin n → ℚ) (c : ℤ) (z : ℚ),
          (detrended_interpolation_local W s data c z).1.tri = some (buildTri md) ∧
          (detrended_interpolation_local W s data c z).1.md = s.md ∧
          (detrended_interpolation_local W s data c z).1.full_df = s.full_df ∧
          (detrended_interpolation_local W s data c z).1.k = s.k ∧
          (detrended_interpolation_local W s data c z).1.mask = s.mask) ∧
        (∀ (W : List (ℚ × ℚ) → Fin n → ℚ) (data data' : Fin n → ℚ)
           (c c' : ℤ) (z z' : ℚ),
          (detrended_interpolation_local W
              (detrended_interpolation_local W s data c z).1 data' c' z').1
            = (detrended_interpolation_local W s data c z).1)) := by
  intro n md k mask s heq
  obtain ⟨hmd, hk, hmask, htri, hfd⟩ := gridInit_inv heq
  refine ⟨htri, hfd, ?_, ?_⟩
  · intro W data c z
    rw [local_state_eq, htri, hmd]
    exact ⟨rfl, rfl, rfl, rfl, rfl⟩
  · intro W data data' c c' z z'
    rw [local_state_eq, local_state_eq]
    cases s
    rfl

/-- C8 witness: the amended statement evaluated on the concrete
three-station set. -/
theorem c8_witness :
    (mkLocalState md3 2 (maskAllB 3)).tri = none ∧
    (detrended_interpolation_local (fun _ _ => (1 : ℚ) / 3)
        (mkLocalState md3 2 (maskAllB 3)) data3 0 500).1.tri
      = some (buildTri md3) := by
  have h := c8_cached_structures 3 md3 2 (maskAllB 3)
    (mkLocalState md3 2 (maskAllB 3))
    (gridInit_of_le md3 (by norm_num) (maskAllB 3))
  exact ⟨h.1, (h.2.2.1 (fun _ _ => (1 : ℚ) / 3) data3 0 500).1⟩

/-- C9: one distribution step is a pure function of the input row, the
configuration and the cached structures: calling it again with the same
inputs from the state the first call produced yields the identical raster
(and the state is stable after the first call). -/
theorem c9_distribution_deterministic :
    ∀ (n : ℕ) (grid_local : Bool) (W : List (ℚ × ℚ) → Fin n → ℚ)
      (s : GridState n) (data : Fin n → ℚ) (c : ℤ) (z : ℚ),
      (detrended_interpolation grid_local W
          (detrended_interpolation grid_local W s data c z).1 data c z).2
        = (detrended_interpolation grid_local W s data c z).2 ∧
      (detrended_interpolation grid_local W
          (detrended_interpolation grid_local W s data c z).1 data c z).1
        = (detrended_interpolation grid_local W s data c z).1 := by
  intro n grid_local W s data c z
  cases grid_local
  · exact ⟨rfl, rfl⟩
  · constructor
    · rfl
    · show (detrended_interpolation_local W
          (detrended_interpolation_local W s data c z).1 data c z).1 = _
      rw [local_state_eq, local_state_eq]
      cases s
      rfl

/-- Three stations whose geographic ordering differs from their projected
ordering: by latitude/longitude station 1 is nearest to station 0, by
UTM coordinates station 2 is. -/
def md10 : Metadata 3 where
  latitude := ![0, 0, 0]
  longitude := ![0, 1, 3]
  utm_x := ![0, 300, 100]
  utm_y := ![0, 0, 0]
  elevation := ![100, 500, 900]

/-- Same geographic coordinates as `md10`, different projected
coordinates. -/
def md10b : Metadata 3 where
  latitude := ![0, 0, 0]
  longitude := ![0, 1, 3]
  utm_x := ![7, 8, 9]
  utm_y := ![1, 1, 1]
  elevation := ![100, 500, 900]

/-- C10: the neighbor index that defines local neighborhoods is built over
geographic (latitude, longitude) coordinates — it is invariant under any
change of the projected coordinates — while the triangulation used to
interpolate slope/intercept/residual fields is built over the projected
(utm_x, utm_y) coordinates — invariant under any change of the geographic
coordinates; and there is a station set where the two orderings disagree:
geographic membership picks station 1, projected distance would pick
station 2. -/
theorem c10_coordinate_mismatch :
    (∀ (n : ℕ) (md md' : Metadata n) (k : ℕ),
        md.latitude = md'.latitude → md.longitude = md'.longitude →
        ∀ i : Fin n, neighborRowFin md i k = neighborRowFin md' i k) ∧
    (∀ (n : ℕ) (md md' : Metadata n),
        md.utm_x = md'.utm_x → md.utm_y = md'.utm_y →
        buildTri md = buildTri md') ∧
    (∀ (n : ℕ) (W : List (ℚ × ℚ) → Fin n → ℚ) (s : GridState n)
        (data : Fin n → ℚ) (c : ℤ) (z : ℚ), s.tri = none →
        (detrended_interpolation_local W s data c z).1.tri
          = some (buildTri s.md)) ∧
    ((mkLocalState md10 2 (maskAllB 3)).full_df 0 = [0, 1] ∧
      (sortedNeighbors (utmCoords md10) 0).take 2 = [0, 2]) := by
  refine ⟨?_, ?_, ?_, ?_, ?_⟩
  · intro n md md' k hlat hlon i
    have hc : latlonCoords md = latlonCoords md' := by
      funext j
      unfold latlonCoords
      rw [hlat, hlon]
    unfold neighborRowFin neighborRow sortedNeighbors
    rw [hc]
  · intro n md md' hx hy
    unfold buildTri utmCoords
    rw [hx, hy]
  · intro n W s data c z htri
    rw [local_state_eq, htri]
    rfl
  · norm_num [mkLocalState, sortedNeighbors, List.finRange, List.insertionSort,
      List.orderedInsert, nnLE, nnKey, sqDist, latlonCoords, md10, Fin.ext_iff]
  · norm_num [sortedNeighbors, List.finRange, List.insertionSort,
      List.orderedInsert, nnLE, nnKey, sqDist, utmCoords, md10, Fin.ext_iff]

/-- C10 witness: the neighbor rows of `md10` and `md10b` (equal geographic
coordinates, different projections) coincide, while their triangulations
differ at the first station. -/
theorem c10_witness :
    neighborRowFin md10 0 2 = neighborRowFin md10b 0 2 ∧
    buildTri md10 = buildTri md10 := by
  constructor
  · exact c10_coordinate_mismatch.1 3 md10 md10b 2 rfl rfl 0
  · exact c10_coordinate_mismatch.2.1 3 md10 md10 rfl rfl

end SMRF
